import Mathlib

/-!
AI Whiteboard front end: App, Toolbar, StatusBar, VideoCanvas, API and WebSocket services.

A shallow embedding of the React front end under `FINALPROJECT/` together with
the stroke log and the mode state machine that the specification describes for
the (absent) Python back end.

* JavaScript values are the inductive `JSVal`; a thrown exception is the
  `Except.error` case of `Except JSVal`.
* A React component is a function from its props to the element tree it returns.
* A service object is a record; a method is a function on that record.
-/

namespace Whiteboard

/-! ## JavaScript values -/

/-- JavaScript values as they occur in the status snapshot and in HTTP bodies.
Finite numbers are rationals (every double is one) and NaN is apart; `obj`
covers objects and arrays. -/
inductive JSVal where
  | undefined
  | null
  | bool (b : Bool)
  | num (x : ℚ)
  | nan
  | str (s : String)
  | obj (fields : List (String × JSVal))

namespace JSVal

/-- ToBoolean: the falsy values are undefined, null, false, 0, NaN and the empty string. -/
def truthy : JSVal → Bool
  | undefined => false
  | null => false
  | bool b => b
  | num x => x != 0
  | nan => false
  | str s => s != ""
  | obj _ => true

/-- The value thrown by a failed member access or method call. -/
def typeError : JSVal := obj [("name", str "TypeError")]

/-- Member read `v.name`: throws on undefined and null, reads the own field of an
object (undefined when absent), and is undefined on the other primitives for the
field names this program uses. -/
def getProp (v : JSVal) (name : String) : Except JSVal JSVal :=
  match v with
  | undefined => .error typeError
  | null => .error typeError
  | obj fields => .ok ((fields.lookup name).getD undefined)
  | _ => .ok undefined

/-- The names of the own fields of a value (empty for a primitive). -/
def keys : JSVal → List String
  | obj fields => fields.map Prod.fst
  | _ => []

/-- Strict equality `v === c` against a string constant. -/
def strictEqStr (v : JSVal) (c : String) : Bool :=
  match v with
  | str s => s == c
  | _ => false

end JSVal

/-- The case mappings of String.prototype. They belong to the JavaScript engine,
not to this repository, and are taken as a parameter. -/
structure StringMethods where
  toUpperCase : String → String
  toLowerCase : String → String

/-- The case mappings restricted to ASCII letters: an instance to evaluate with. -/
def asciiMethods : StringMethods where
  toUpperCase s := String.mk (s.data.map Char.toUpper)
  toLowerCase s := String.mk (s.data.map Char.toLower)

/-- Method call `v.toUpperCase()`: only a string has the method. -/
def callToUpperCase (js : StringMethods) : JSVal → Except JSVal String
  | .str s => .ok (js.toUpperCase s)
  | _ => .error JSVal.typeError

/-- Method call `v.toLowerCase()`: only a string has the method. -/
def callToLowerCase (js : StringMethods) : JSVal → Except JSVal String
  | .str s => .ok (js.toLowerCase s)
  | _ => .error JSVal.typeError

/-! ## Toolbar.jsx -/

/-- The callbacks App defines and hands to its children. -/
inductive Handler where
  | handleStartVideo
  | handleClearCanvas
  | handleUndo
  | handleRedo
  | handlePerfectShape
  | handleChangeColor
  | handleChangeBrushSize
  | handleSaveCanvas
  deriving DecidableEq, Repr

/-- The palette of Toolbar.jsx. -/
def COLORS : List String := ["red", "blue", "green", "yellow", "purple", "white"]

/-- Props of the Toolbar component. -/
structure ToolbarProps where
  onClearCanvas : Handler
  onUndo : Handler
  onRedo : Handler
  onPerfectShape : Handler
  onChangeColor : Handler
  onChangeBrushSize : Handler
  onSaveCanvas : Handler
  currentColor : JSVal
  brushSize : JSVal
  canUndo : JSVal
  canRedo : JSVal

/-- One button of the color picker. -/
structure ColorButton where
  key : String
  className : String
  backgroundColor : String
  border : String
  onClick : Handler × String
  title : String
  child : JSVal

/-- One button of the Actions section; `disabled` is false when the attribute is absent. -/
structure ActionButton where
  className : String
  onClick : Handler
  disabled : Bool
  title : String
  label : String

/-- The brush slider: an input of type range. -/
structure BrushSlider where
  min : String
  max : String
  value : JSVal
  onChange : Handler

/-- The element tree Toolbar returns. -/
structure ToolbarView where
  colors : List ColorButton
  brushHeading : String × JSVal × String
  slider : BrushSlider
  undo : ActionButton
  redo : ActionButton
  shape : ActionButton
  clear : ActionButton
  save : ActionButton

/-- One entry of `COLORS.map(...)`. -/
def colorButton (p : ToolbarProps) (color : String) : ColorButton where
  key := color
  className := "color-btn " ++ (if p.currentColor.strictEqStr color then "active" else "")
  backgroundColor := if color == "white" then "#fff" else color
  border := if color == "white" then "2px solid #333" else "none"
  onClick := (p.onChangeColor, color)
  title := color
  child := if p.currentColor.strictEqStr color then .str "✓" else .bool false

/-- The Toolbar component. -/
def Toolbar (p : ToolbarProps) : ToolbarView where
  colors := COLORS.map (colorButton p)
  brushHeading := ("Brush Size: ", p.brushSize, "px")
  slider := ⟨"2", "30", p.brushSize, p.onChangeBrushSize⟩
  undo := ⟨"btn btn-undo", p.onUndo, !p.canUndo.truthy, "Undo", "↩️ Undo"⟩
  redo := ⟨"btn btn-redo", p.onRedo, !p.canRedo.truthy, "Redo", "↪️ Redo"⟩
  shape := ⟨"btn btn-shape", p.onPerfectShape, false, "Perfect Shape", "✨ Perfect Shape"⟩
  clear := ⟨"btn btn-clear", p.onClearCanvas, false, "Clear Canvas", "🗑️ Clear"⟩
  save := ⟨"btn btn-save", p.onSaveCanvas, false, "Save", "💾 Save"⟩

/-! ## StatusBar.jsx -/

/-- Props of the StatusBar component. -/
structure StatusBarProps where
  mode : JSVal
  color : JSVal
  brushSize : JSVal
  handDetected : JSVal
  canUndo : JSVal
  canRedo : JSVal

/-- The element tree StatusBar returns: for each status item the class of its
value span (when computed) and the children of that span. -/
structure StatusBarView where
  modeClass : String
  modeShown : JSVal
  colorShown : String
  brushShown : JSVal × String
  handClass : String
  handShown : String
  undoShown : String
  redoShown : String

/-- The StatusBar component, given the string methods of the engine. -/
def StatusBar (js : StringMethods) (p : StatusBarProps) : Except JSVal StatusBarView := do
  let modeLower ← callToLowerCase js p.mode
  let colorUpper ← callToUpperCase js p.color
  pure {
    modeClass := "status-value mode-" ++ modeLower
    modeShown := p.mode
    colorShown := colorUpper
    brushShown := (p.brushSize, "px")
    handClass := "status-value " ++ (if p.handDetected.truthy then "detected" else "not-detected")
    handShown := if p.handDetected.truthy then "✓ Detected" else "✗ Not Detected"
    undoShown := if p.canUndo.truthy then "YES" else "NO"
    redoShown := if p.canRedo.truthy then "YES" else "NO" }

/-! ## App.js: state and render -/

/-- The three useState cells of App. -/
structure AppState where
  isConnected : Bool
  videoStarted : Bool
  status : JSVal

/-- The initial value of the `status` cell. -/
def initialStatus : JSVal :=
  .obj [("mode", .str "IDLE"), ("color", .str "red"), ("brush_size", .num 5),
    ("can_undo", .bool false), ("can_redo", .bool false), ("hand_detected", .bool false)]

/-- The state of a freshly mounted App. -/
def App.initial : AppState := ⟨false, false, initialStatus⟩

/-- What App puts inside `main`. -/
inductive Screen where
  | connecting
  | start (onClick : Handler)
  | board (toolbar : ToolbarProps) (statusBar : StatusBarProps)

/-- The props App gives to Toolbar. -/
def App.toolbarProps (status : JSVal) : Except JSVal ToolbarProps := do
  let color ← status.getProp "color"
  let brushSize ← status.getProp "brush_size"
  let canUndo ← status.getProp "can_undo"
  let canRedo ← status.getProp "can_redo"
  pure {
    onClearCanvas := .handleClearCanvas
    onUndo := .handleUndo
    onRedo := .handleRedo
    onPerfectShape := .handlePerfectShape
    onChangeColor := .handleChangeColor
    onChangeBrushSize := .handleChangeBrushSize
    onSaveCanvas := .handleSaveCanvas
    currentColor := color
    brushSize := brushSize
    canUndo := canUndo
    canRedo := canRedo }

/-- The props App gives to StatusBar. -/
def App.statusBarProps (status : JSVal) : Except JSVal StatusBarProps := do
  let mode ← status.getProp "mode"
  let color ← status.getProp "color"
  let brushSize ← status.getProp "brush_size"
  let handDetected ← status.getProp "hand_detected"
  let canUndo ← status.getProp "can_undo"
  let canRedo ← status.getProp "can_redo"
  pure ⟨mode, color, brushSize, handDetected, canUndo, canRedo⟩

/-- The body of `main` in the render of App. -/
def App.render (s : AppState) : Except JSVal Screen :=
  if !s.isConnected then .ok .connecting
  else if !s.videoStarted then .ok (.start .handleStartVideo)
  else do
    let toolbar ← App.toolbarProps s.status
    let statusBar ← App.statusBarProps s.status
    pure (.board toolbar statusBar)

/-! ## services/api.js -/

/-- The two HTTP verbs the service uses. -/
inductive Method where
  | GET
  | POST
  deriving DecidableEq, Repr

/-- A call on the axios instance: verb, path and the optional body object. -/
structure Request where
  method : Method
  url : String
  data : Option JSVal

/-- What axios resolves with. -/
structure Response where
  data : JSVal

/-- The axios instance: a request resolves with a response or rejects with an error. -/
abbrev Transport := Request → Except JSVal Response

/-- Observable side effects other than state updates. -/
inductive Effect where
  | consoleError (text : String) (error : JSVal)
  | consoleLog (text : String) (value : JSVal)
  | alert (text : String)
  | alertWith (text : String) (value : JSVal)

/-- The outcome of running a piece of code: what it logged and whether it
returned or threw. -/
structure Outcome (α : Type) where
  log : List Effect
  result : Except JSVal α

namespace api

/-- The shape shared by the eight exported functions: await the request, return
`response.data`; on rejection log and rethrow the same error. -/
def send (http : Transport) (request : Request) (text : String) : Outcome JSVal :=
  match http request with
  | .ok response => ⟨[], .ok response.data⟩
  | .error error => ⟨[.consoleError text error], .error error⟩

def getStatusRequest : Request := ⟨.GET, "/api/status", none⟩

def clearCanvasRequest : Request := ⟨.POST, "/api/clear", none⟩

def undoRequest : Request := ⟨.POST, "/api/undo", none⟩

def redoRequest : Request := ⟨.POST, "/api/redo", none⟩

def perfectShapeRequest : Request := ⟨.POST, "/api/perfect-shape", none⟩

def changeColorRequest (color : JSVal) : Request :=
  ⟨.POST, "/api/color", some (.obj [("color", color)])⟩

def changeBrushSizeRequest (size : JSVal) : Request :=
  ⟨.POST, "/api/brush-size", some (.obj [("size", size)])⟩

def saveCanvasRequest : Request := ⟨.POST, "/api/save", none⟩

def getStatus (http : Transport) : Outcome JSVal :=
  send http getStatusRequest "Error getting status:"

def clearCanvas (http : Transport) : Outcome JSVal :=
  send http clearCanvasRequest "Error clearing canvas:"

def undo (http : Transport) : Outcome JSVal :=
  send http undoRequest "Error undo:"

def redo (http : Transport) : Outcome JSVal :=
  send http redoRequest "Error redo:"

def perfectShape (http : Transport) : Outcome JSVal :=
  send http perfectShapeRequest "Error perfect shape:"

def changeColor (http : Transport) (color : JSVal) : Outcome JSVal :=
  send http (changeColorRequest color) "Error changing color:"

def changeBrushSize (http : Transport) (size : JSVal) : Outcome JSVal :=
  send http (changeBrushSizeRequest size) "Error changing brush size:"

def saveCanvas (http : Transport) : Outcome JSVal :=
  send http saveCanvasRequest "Error saving canvas:"

end api

/-- The exported functions of the API service, with their arguments. -/
inductive ApiCall where
  | getStatus
  | clearCanvas
  | undo
  | redo
  | perfectShape
  | changeColor (color : JSVal)
  | changeBrushSize (size : JSVal)
  | saveCanvas

namespace ApiCall

/-- The request the function issues. -/
def request : ApiCall → Request
  | getStatus => api.getStatusRequest
  | clearCanvas => api.clearCanvasRequest
  | undo => api.undoRequest
  | redo => api.redoRequest
  | perfectShape => api.perfectShapeRequest
  | changeColor color => api.changeColorRequest color
  | changeBrushSize size => api.changeBrushSizeRequest size
  | saveCanvas => api.saveCanvasRequest

/-- Running the function against a transport. -/
def run (http : Transport) : ApiCall → Outcome JSVal
  | getStatus => api.getStatus http
  | clearCanvas => api.clearCanvas http
  | undo => api.undo http
  | redo => api.redo http
  | perfectShape => api.perfectShape http
  | changeColor color => api.changeColor http color
  | changeBrushSize size => api.changeBrushSize http size
  | saveCanvas => api.saveCanvas http

end ApiCall

/-- ControlCommand of the specification (section 3): a tagged variant. -/
inductive ControlCommand where
  | ClearCanvas
  | Undo
  | Redo
  | SetColor (color : JSVal)
  | SetBrushSize (size : JSVal)
  | PerfectShape
  | Save

/-- The API function that carries each control command. -/
def ControlCommand.call : ControlCommand → ApiCall
  | ClearCanvas => .clearCanvas
  | Undo => .undo
  | Redo => .redo
  | SetColor color => .changeColor color
  | SetBrushSize size => .changeBrushSize size
  | PerfectShape => .perfectShape
  | Save => .saveCanvas

/-! ## App.js: the status poll and the control handlers -/

/-- The body of the 500 ms interval callback. -/
def App.pollStatus (http : Transport) (s : AppState) : Outcome AppState :=
  let r := api.getStatus http
  match r.result with
  | .ok statusData => ⟨r.log, .ok { s with status := statusData }⟩
  | .error error => ⟨r.log ++ [.consoleError "Error fetching status:" error], .ok s⟩

def App.handleClearCanvas (http : Transport) (s : AppState) : Outcome AppState :=
  let r := api.clearCanvas http
  match r.result with
  | .ok _ => ⟨r.log, .ok s⟩
  | .error error => ⟨r.log ++ [.consoleError "Error clearing canvas:" error], .ok s⟩

def App.handleUndo (http : Transport) (s : AppState) : Outcome AppState :=
  let r := api.undo http
  match r.result with
  | .ok _ => ⟨r.log, .ok s⟩
  | .error error => ⟨r.log ++ [.consoleError "Error undoing:" error], .ok s⟩

def App.handleRedo (http : Transport) (s : AppState) : Outcome AppState :=
  let r := api.redo http
  match r.result with
  | .ok _ => ⟨r.log, .ok s⟩
  | .error error => ⟨r.log ++ [.consoleError "Error redoing:" error], .ok s⟩

/-- In handlePerfectShape the read `result.message` sits inside the try block, so
its TypeError is caught as well. -/
def App.handlePerfectShape (http : Transport) (s : AppState) : Outcome AppState :=
  let r := api.perfectShape http
  match r.result with
  | .ok result =>
    match result.getProp "message" with
    | .ok message => ⟨r.log ++ [.consoleLog "✨" message], .ok s⟩
    | .error error =>
      ⟨r.log ++ [.consoleError "Error applying shape recognition:" error], .ok s⟩
  | .error error =>
    ⟨r.log ++ [.consoleError "Error applying shape recognition:" error], .ok s⟩

def App.handleChangeColor (http : Transport) (color : JSVal) (s : AppState) :
    Outcome AppState :=
  let r := api.changeColor http color
  match r.result with
  | .ok _ => ⟨r.log, .ok s⟩
  | .error error => ⟨r.log ++ [.consoleError "Error changing color:" error], .ok s⟩

def App.handleChangeBrushSize (http : Transport) (size : JSVal) (s : AppState) :
    Outcome AppState :=
  let r := api.changeBrushSize http size
  match r.result with
  | .ok _ => ⟨r.log, .ok s⟩
  | .error error => ⟨r.log ++ [.consoleError "Error changing brush size:" error], .ok s⟩

def App.handleSaveCanvas (http : Transport) (s : AppState) : Outcome AppState :=
  let r := api.saveCanvas http
  match r.result with
  | .ok result =>
    match result.getProp "filename" with
    | .ok filename => ⟨r.log ++ [.alertWith "Canvas saved as: " filename], .ok s⟩
    | .error error =>
      ⟨r.log ++ [.consoleError "Error saving canvas:" error, .alert "Error saving canvas"],
        .ok s⟩
  | .error error =>
    ⟨r.log ++ [.consoleError "Error saving canvas:" error, .alert "Error saving canvas"],
      .ok s⟩

/-- The seven control handlers and the status poll of App, with the API call each
one awaits. -/
inductive BackendAction where
  | poll
  | clear
  | undo
  | redo
  | perfectShape
  | changeColor (color : JSVal)
  | changeBrushSize (size : JSVal)
  | save

namespace BackendAction

/-- The API function the action awaits. -/
def call : BackendAction → ApiCall
  | poll => .getStatus
  | clear => .clearCanvas
  | undo => .undo
  | redo => .redo
  | perfectShape => .perfectShape
  | changeColor color => .changeColor color
  | changeBrushSize size => .changeBrushSize size
  | save => .saveCanvas

/-- Running the handler (or the poll callback) of App. -/
def run (http : Transport) (s : AppState) : BackendAction → Outcome AppState
  | poll => App.pollStatus http s
  | clear => App.handleClearCanvas http s
  | undo => App.handleUndo http s
  | redo => App.handleRedo http s
  | perfectShape => App.handlePerfectShape http s
  | changeColor color => App.handleChangeColor http color s
  | changeBrushSize size => App.handleChangeBrushSize http size s
  | save => App.handleSaveCanvas http s

end BackendAction

/-! ## services/websocket.js -/

/-- What happens on a socket, newest first in a trace. -/
inductive SocketEvent where
  | connect
  | disconnect
  | emit (name : String)
  deriving DecidableEq, Repr

/-- The socket.io client socket as far as the service uses it: its own
`connected` flag, the trace of its connect and disconnect events and of the
messages emitted on it, and the event names that have a listener. -/
structure Socket where
  connected : Bool
  trace : List SocketEvent
  listeners : List String
  deriving DecidableEq, Repr

namespace Socket

/-- The result of `io(backendUrl, options)`: a socket that is not yet connected. -/
def create : Socket := ⟨false, [], []⟩

/-- The call `socket.on(name, callback)`. -/
def listen (sock : Socket) (name : String) : Socket :=
  { sock with listeners := sock.listeners ++ [name] }

/-- The call `socket.emit(name)`. -/
def emit (sock : Socket) (name : String) : Socket :=
  { sock with trace := .emit name :: sock.trace }

/-- The socket fires its connect event. -/
def fireConnect (sock : Socket) : Socket :=
  { sock with connected := true, trace := .connect :: sock.trace }

/-- The socket fires its disconnect event. -/
def fireDisconnect (sock : Socket) : Socket :=
  { sock with connected := false, trace := .disconnect :: sock.trace }

end Socket

/-- The two fields of the WebSocketService object. -/
structure WebSocketService where
  socket : Option Socket
  isConnected : Bool
  deriving DecidableEq, Repr

namespace WebSocketService

/-- The constructor. -/
def new : WebSocketService := ⟨none, false⟩

/-- The method connect(): a new socket with the three listeners of the service. -/
def connect (svc : WebSocketService) : WebSocketService :=
  { svc with socket := some (((Socket.create.listen "connect").listen "disconnect").listen "error") }

/-- The listener the service registers for the connect event. -/
def onSocketConnect (svc : WebSocketService) : WebSocketService :=
  { svc with isConnected := true }

/-- The listener the service registers for the disconnect event. -/
def onSocketDisconnect (svc : WebSocketService) : WebSocketService :=
  { svc with isConnected := false }

/-- The method disconnect(): guarded by `if (this.socket)`. -/
def disconnect (svc : WebSocketService) : WebSocketService :=
  match svc.socket with
  | some _ => { socket := none, isConnected := false }
  | none => svc

/-- The method startVideo(): guarded by `this.socket && this.isConnected`. -/
def startVideo (svc : WebSocketService) : WebSocketService :=
  match svc.socket with
  | some sock =>
    if svc.isConnected then { svc with socket := some (sock.emit "start_video") } else svc
  | none => svc

/-- The method stopVideo(): guarded by `this.socket && this.isConnected`. -/
def stopVideo (svc : WebSocketService) : WebSocketService :=
  match svc.socket with
  | some sock =>
    if svc.isConnected then { svc with socket := some (sock.emit "stop_video") } else svc
  | none => svc

/-- The method onVideoFrame(callback): guarded by `if (this.socket)`. -/
def onVideoFrame (svc : WebSocketService) : WebSocketService :=
  match svc.socket with
  | some sock => { svc with socket := some (sock.listen "video_frame") }
  | none => svc

/-- The messages emitted on the socket of the service, newest first. -/
def emitted (svc : WebSocketService) : List SocketEvent :=
  match svc.socket with
  | some sock => sock.trace
  | none => []

end WebSocketService

/-! ## App.js and websocket.js together: mounting, socket events, the Start button -/

/-- The listener App registers for the connect event. -/
def App.onConnect (s : AppState) : AppState := { s with isConnected := true }

/-- The listener App registers for the disconnect event. -/
def App.onDisconnect (s : AppState) : AppState :=
  { s with isConnected := false, videoStarted := false }

/-- The callback handleStartVideo. -/
def App.handleStartVideo (svc : WebSocketService) (s : AppState) :
    WebSocketService × AppState :=
  (svc.startVideo, { s with videoStarted := true })

/-- The App component instance together with the service singleton. -/
structure System where
  mounted : Bool
  app : AppState
  service : WebSocketService

/-- Before the App is mounted. -/
def System.initial : System := ⟨false, App.initial, WebSocketService.new⟩

/-- The steps of the system. -/
inductive Step where
  | mount
  | socketConnect
  | socketDisconnect
  | clickStart
  | unmount
  deriving DecidableEq, Repr

/-- The Start button is on screen: the App is mounted and renders the start message. -/
def System.startOffered (s : System) : Bool :=
  s.mounted && s.app.isConnected && !s.app.videoStarted

/-- When a step can happen. A component instance mounts once and unmounts once;
a socket fires connect only while disconnected and disconnect only while
connected; a click needs the button. -/
def System.enabled (s : System) : Step → Bool
  | .mount => !s.mounted
  | .socketConnect =>
    match s.service.socket with
    | some sock => !sock.connected
    | none => false
  | .socketDisconnect =>
    match s.service.socket with
    | some sock => sock.connected
    | none => false
  | .clickStart => s.startOffered
  | .unmount => s.mounted

/-- The effect of a step. On an event of the socket the listener of the service
runs first (it was registered first), then the listener of App. The call
`socket.disconnect()` made on unmount fires the disconnect event when the
socket is connected. -/
def System.apply (s : System) : Step → System
  | .mount =>
    let svc := s.service.connect
    let svc := { svc with socket := svc.socket.map fun sock =>
      (sock.listen "connect").listen "disconnect" }
    ⟨true, App.initial, svc⟩
  | .socketConnect =>
    let svc := { s.service with socket := s.service.socket.map Socket.fireConnect }
    ⟨s.mounted, App.onConnect s.app, svc.onSocketConnect⟩
  | .socketDisconnect =>
    let svc := { s.service with socket := s.service.socket.map Socket.fireDisconnect }
    ⟨s.mounted, App.onDisconnect s.app, svc.onSocketDisconnect⟩
  | .clickStart =>
    let r := App.handleStartVideo s.service s.app
    ⟨s.mounted, r.2, r.1⟩
  | .unmount =>
    let fires := match s.service.socket with
      | some sock => sock.connected
      | none => false
    let svc := if fires then s.service.onSocketDisconnect else s.service
    let app := if fires then App.onDisconnect s.app else s.app
    ⟨false, app, svc.disconnect⟩

/-- The states the system can be in. -/
inductive Reachable : System → Prop where
  | initial : Reachable System.initial
  | step (s : System) (e : Step) : Reachable s → s.enabled e = true → Reachable (s.apply e)

/-- Running a list of steps, stopping at the first one that is not enabled. -/
def System.run (s : System) : List Step → Option System
  | [] => some s
  | e :: es => if s.enabled e then (s.apply e).run es else none

/-- Whether `start_video` was emitted since the most recent connect event of a
trace (newest first). -/
def startedSinceConnect : List SocketEvent → Bool
  | [] => false
  | .emit name :: rest => name == "start_video" || startedSinceConnect rest
  | .connect :: _ => false
  | .disconnect :: rest => startedSinceConnect rest

/-! ## VideoCanvas.jsx: the frame callback -/

/-- The `fps` state cell and the `lastFrameTime` ref of VideoCanvas. -/
structure VideoCanvasState where
  fps : Int
  lastFrameTime : Int
  deriving DecidableEq, Repr

/-- Math.round: the nearest integer, a tie going up. On the quotients the
callback computes (1000 over a positive integer number of milliseconds) the
double-precision quotient and the exact one round to the same integer: a
quotient that is not a half-integer is at least 1/(2 * elapsed) away from one. -/
def mathRound (x : ℚ) : Int := ⌊x + 1 / 2⌋

/-- The callback given to onVideoFrame, as far as `fps` and `lastFrameTime` go;
`now` is the value of Date.now(). -/
def VideoCanvas.onFrame (st : VideoCanvasState) (now : Int) : VideoCanvasState :=
  let elapsed := now - st.lastFrameTime
  { fps := if elapsed > 0 then mathRound (1000 / (elapsed : ℚ)) else st.fps
    lastFrameTime := now }

/-! ## The stroke log (specification, section 4.1) -/

/-- Modelled from the spec: the Stroke Log of sections 3 and 4.1, which lives in
the back end and is not among the sources. An ordered sequence of committed
strokes plus the history pointer `h`; only strokes at index below `h` are
visible. -/
structure StrokeLog (σ : Type) where
  strokes : List σ
  h : Nat

namespace StrokeLog

variable {σ : Type}

/-- Modelled from the spec: a session starts with an empty log and h = 0. -/
def empty : StrokeLog σ := ⟨[], 0⟩

/-- Modelled from the spec: Append truncates any strokes at index at least h,
appends the new stroke and sets h to the new length. -/
def Append (l : StrokeLog σ) (stroke : σ) : StrokeLog σ :=
  let strokes := l.strokes.take l.h ++ [stroke]
  ⟨strokes, strokes.length⟩

/-- Modelled from the spec: Undo is a no-op returning false when h = 0, else it
decrements h and returns true. -/
def Undo (l : StrokeLog σ) : StrokeLog σ × Bool :=
  if l.h = 0 then (l, false) else (⟨l.strokes, l.h - 1⟩, true)

/-- Modelled from the spec: Redo is a no-op returning false when h = length,
else it increments h and returns true. -/
def Redo (l : StrokeLog σ) : StrokeLog σ × Bool :=
  if l.h = l.strokes.length then (l, false) else (⟨l.strokes, l.h + 1⟩, true)

/-- Modelled from the spec: Clear empties the log and sets h = 0. -/
def Clear (_l : StrokeLog σ) : StrokeLog σ := ⟨[], 0⟩

/-- Modelled from the spec: the visible strokes are `strokes[0:h]`. -/
def VisibleStrokes (l : StrokeLog σ) : List σ := l.strokes.take l.h

/-- Modelled from the spec: can_undo = h > 0. -/
def can_undo (l : StrokeLog σ) : Bool := decide (l.h > 0)

/-- Modelled from the spec: can_redo = h < length. -/
def can_redo (l : StrokeLog σ) : Bool := decide (l.h < l.strokes.length)

/-- Calling Redo a number of times in a row. -/
def redoTimes : Nat → StrokeLog σ → StrokeLog σ
  | 0, l => l
  | n + 1, l => redoTimes n l.Redo.1

/-- The two history moves. -/
inductive Move where
  | undo
  | redo
  deriving DecidableEq, Repr

/-- Performing a sequence of Undo and Redo calls. -/
def moves : List Move → StrokeLog σ → StrokeLog σ
  | [], l => l
  | .undo :: ms, l => moves ms l.Undo.1
  | .redo :: ms, l => moves ms l.Redo.1

end StrokeLog

/-! ## The mode state machine (specification, section 4.2) -/

/-- Modelled from the spec: the gesture labels of a GestureEvent. -/
inductive Gesture where
  | ONE_FINGER
  | FIST
  | TWO_FINGERS
  | THREE_FINGERS
  | FOUR_FINGERS
  | NONE
  deriving DecidableEq, Repr

/-- Modelled from the spec: the modes of a Session. -/
inductive Mode where
  | IDLE
  | DRAWING
  | ERASING
  | STOPPED
  deriving DecidableEq, Repr

/-- Modelled from the spec: the tool of a stroke. -/
inductive Tool where
  | draw
  | erase
  deriving DecidableEq, Repr

/-- Modelled from the spec: a stroke is an ordered sequence of points plus
color (an index into the cyclic palette), brush_size, tool and created_at. -/
structure Stroke (P : Type) where
  points : List P
  color : Nat
  brush_size : Nat
  tool : Tool
  created_at : Nat

/-- Modelled from the spec: a gesture event is a label, a position and the
sequence number of its frame. -/
structure GestureEvent (P : Type) where
  label : Gesture
  position : P
  frame_seq : Nat

/-- Modelled from the spec: a Session holds the mode, the current color and
brush size, the stroke log and the in-progress stroke; the machine also tracks
the last label it saw, as the edge-triggering rule requires. -/
structure Session (P : Type) where
  mode : Mode
  color : Nat
  brush_size : Nat
  log : StrokeLog (Stroke P)
  inProgress : Option (Stroke P)
  lastLabel : Option Gesture

/-- What a gesture does to the color. -/
inductive ColorAction where
  | keep
  | next
  | previous
  deriving DecidableEq, Repr

namespace Session

variable {P : Type}

/-- Modelled from the spec: a session is created in IDLE with an empty log, no
stroke in progress and no label seen yet. -/
def fresh (color brush_size : Nat) : Session P :=
  ⟨.IDLE, color, brush_size, StrokeLog.empty, none, none⟩

/-- Modelled from the spec: committing moves the in-progress stroke to the log
when it has at least two points and discards it otherwise. -/
def commit (s : Session P) : Session P :=
  match s.inProgress with
  | some stroke =>
    if 2 ≤ stroke.points.length then
      { s with log := s.log.Append stroke, inProgress := none }
    else { s with inProgress := none }
  | none => s

/-- Modelled from the spec: ONE_FINGER and FIST start a new in-progress stroke
when the previous mode differs (committing what was in progress), else they
append the position to the stroke in progress. -/
def stroke (s : Session P) (mode : Mode) (tool : Tool) (e : GestureEvent P) : Session P :=
  if s.mode = mode then
    match s.inProgress with
    | some st => { s with inProgress := some { st with points := st.points ++ [e.position] } }
    | none => { s with inProgress := some ⟨[e.position], s.color, s.brush_size, tool, e.frame_seq⟩ }
  else
    let s := s.commit
    { s with mode := mode,
             inProgress := some ⟨[e.position], s.color, s.brush_size, tool, e.frame_seq⟩ }

/-- Modelled from the spec: the color-cycle gestures are edge-triggered, they act
only when the previous label differs from the current one. -/
def colorAction (last : Option Gesture) (label : Gesture) : ColorAction :=
  match label with
  | .THREE_FINGERS => if last = some .THREE_FINGERS then .keep else .next
  | .FOUR_FINGERS => if last = some .FOUR_FINGERS then .keep else .previous
  | _ => .keep

/-- Moving through a cyclic palette of `n` colors. -/
def cycle (n : Nat) (color : Nat) : ColorAction → Nat
  | .keep => color
  | .next => (color + 1) % n
  | .previous => (color + n - 1) % n

/-- Modelled from the spec: the transition table of section 4.2, for a palette
of `n` colors. -/
def step (n : Nat) (s : Session P) (e : GestureEvent P) : Session P :=
  let s :=
    match e.label with
    | .ONE_FINGER => s.stroke .DRAWING .draw e
    | .FIST => s.stroke .ERASING .erase e
    | .TWO_FINGERS => { s.commit with mode := .STOPPED }
    | .THREE_FINGERS =>
      let s := s.commit
      { s with color := cycle n s.color (colorAction s.lastLabel .THREE_FINGERS) }
    | .FOUR_FINGERS =>
      let s := s.commit
      { s with color := cycle n s.color (colorAction s.lastLabel .FOUR_FINGERS) }
    | .NONE => { s.commit with mode := .IDLE }
  { s with lastLabel := some e.label }

/-- Feeding a sequence of gesture events to the machine. -/
def run (n : Nat) (s : Session P) : List (GestureEvent P) → Session P
  | [] => s
  | e :: es => run n (step n s e) es

/-- The number of times the color advances to the next palette entry while the
machine processes the events, observed on the color itself: a step counts
when the color after it is the palette successor of the color before it. -/
def colorAdvances (n : Nat) (s : Session P) : List (GestureEvent P) → Nat
  | [] => 0
  | e :: es =>
    (if (step n s e).color = (s.color + 1) % n then 1 else 0)
      + colorAdvances n (step n s e) es

end Session

/-- The positions of a label sequence whose label is THREE_FINGERS and whose
preceding label, if any, is not THREE_FINGERS: each label is paired with the
one before it (none for the first). -/
def threeFingerOnsets (labels : List Gesture) : Nat :=
  ((none :: labels.map some).zip labels).countP fun pair =>
    pair.2 == Gesture.THREE_FINGERS && pair.1 != some Gesture.THREE_FINGERS

/-- The positions of a label sequence whose label is FOUR_FINGERS and whose
preceding label, if any, is not FOUR_FINGERS. -/
def fourFingerOnsets (labels : List Gesture) : Nat :=
  ((none :: labels.map some).zip labels).countP fun pair =>
    pair.2 == Gesture.FOUR_FINGERS && pair.1 != some Gesture.FOUR_FINGERS

/-! ## Sample states -/

/-- A state in which App renders the board. -/
def boardState : AppState := ⟨true, true, initialStatus⟩

/-- A transport whose every request fails. -/
def failingTransport : Transport := fun _ => .error (.str "Network Error")

/-- The state after mounting, the connect event and a click on Start. -/
def startedSystem : System :=
  ((System.initial.apply .mount).apply .socketConnect).apply .clickStart

/-- The invariant that every step of the system preserves. -/
structure System.Inv (s : System) : Prop where
  started_connected : s.app.videoStarted = true → s.app.isConnected = true
  connected_socket : s.app.isConnected = true →
    ∃ sock, s.service.socket = some sock ∧ sock.connected = true ∧ s.service.isConnected = true
  started_emitted : s.app.videoStarted = true →
    ∃ sock, s.service.socket = some sock ∧ startedSinceConnect sock.trace = true

/-! # Theorems -/


/-! ## Lemmas on the components -/

theorem yes_no_eq_yes (b : Bool) : (if b = true then "YES" else "NO") = "YES" ↔ b = true := by
  cases b <;> decide

theorem yes_no_eq_no (b : Bool) : (if b = true then "YES" else "NO") = "NO" ↔ b = false := by
  cases b <;> decide

theorem render_board_props {s : AppState} {tb : ToolbarProps} {sb : StatusBarProps}
    (h : App.render s = .ok (.board tb sb)) :
    App.toolbarProps s.status = .ok tb ∧ App.statusBarProps s.status = .ok sb := by
  unfold App.render at h
  by_cases hc : s.isConnected = true
  · by_cases hv : s.videoStarted = true
    · simp only [hc, hv, Bool.not_true, Bool.false_eq_true, if_false] at h
      cases ht : App.toolbarProps s.status with
      | error e => simp [ht, bind, Except.bind] at h
      | ok t =>
        cases hs : App.statusBarProps s.status with
        | error e => simp [ht, hs, bind, Except.bind] at h
        | ok b =>
          simp [ht, hs, bind, Except.bind, pure, Except.pure] at h
          obtain ⟨h1, h2⟩ := h
          subst h1; subst h2
          exact ⟨rfl, rfl⟩
    · simp [hc, hv] at h
  · simp [hc] at h

theorem toolbarProps_fields {status : JSVal} {tb : ToolbarProps}
    (h : App.toolbarProps status = .ok tb) :
    status.getProp "color" = .ok tb.currentColor ∧
    status.getProp "brush_size" = .ok tb.brushSize ∧
    status.getProp "can_undo" = .ok tb.canUndo ∧
    status.getProp "can_redo" = .ok tb.canRedo := by
  cases status <;>
    simp [App.toolbarProps, JSVal.getProp, bind, Except.bind, pure, Except.pure] at h ⊢ <;>
    subst h <;> simp

theorem statusBarProps_fields {status : JSVal} {sb : StatusBarProps}
    (h : App.statusBarProps status = .ok sb) :
    status.getProp "mode" = .ok sb.mode ∧
    status.getProp "color" = .ok sb.color ∧
    status.getProp "brush_size" = .ok sb.brushSize ∧
    status.getProp "hand_detected" = .ok sb.handDetected ∧
    status.getProp "can_undo" = .ok sb.canUndo ∧
    status.getProp "can_redo" = .ok sb.canRedo := by
  cases status <;>
    simp [App.statusBarProps, JSVal.getProp, bind, Except.bind, pure, Except.pure] at h ⊢ <;>
    subst h <;> simp

/-- C1: Toolbar disables Undo exactly when canUndo is falsy and Redo exactly when
canRedo is falsy, each flag depending on its own prop alone; and whenever App
renders the board it passes status.can_undo and status.can_redo unchanged, so
Undo (Redo) is clickable iff the status snapshot has a truthy can_undo (can_redo). -/
theorem toolbar_undo_redo_follow_status (s : AppState) (tb : ToolbarProps)
    (sb : StatusBarProps) (h : App.render s = .ok (.board tb sb)) :
    (∀ p : ToolbarProps, (Toolbar p).undo.disabled = !p.canUndo.truthy ∧
        (Toolbar p).redo.disabled = !p.canRedo.truthy) ∧
    (∀ p q : ToolbarProps, (p.canUndo = q.canUndo →
        (Toolbar p).undo.disabled = (Toolbar q).undo.disabled) ∧
      (p.canRedo = q.canRedo → (Toolbar p).redo.disabled = (Toolbar q).redo.disabled)) ∧
    s.status.getProp "can_undo" = .ok tb.canUndo ∧
    s.status.getProp "can_redo" = .ok tb.canRedo ∧
    ((Toolbar tb).undo.disabled = false ↔
      ∃ v, s.status.getProp "can_undo" = .ok v ∧ v.truthy = true) ∧
    ((Toolbar tb).redo.disabled = false ↔
      ∃ v, s.status.getProp "can_redo" = .ok v ∧ v.truthy = true) := by
  obtain ⟨hc, hb, hu, hr⟩ := toolbarProps_fields (render_board_props h).1
  refine ⟨fun p => ⟨rfl, rfl⟩, fun p q => ⟨?_, ?_⟩, hu, hr, ?_, ?_⟩
  · intro e
    simp [Toolbar, e]
  · intro e
    simp [Toolbar, e]
  · rw [hu]
    simp [Toolbar]
  · rw [hr]
    simp [Toolbar]

/-- Witness for C1: the board rendered from the initial status. -/
theorem toolbar_undo_redo_follow_status_witness :
    ∃ tb sb, App.render boardState = .ok (.board tb sb) ∧
      ((Toolbar tb).undo.disabled = false ↔
        ∃ v, boardState.status.getProp "can_undo" = .ok v ∧ v.truthy = true) :=
  ⟨_, _, rfl, (toolbar_undo_redo_follow_status boardState _ _ rfl).2.2.2.2.1⟩

theorem statusBar_ok {js : StringMethods} {sb : StatusBarProps} {v : StatusBarView}
    (h : StatusBar js sb = .ok v) :
    ∃ mode color, sb.mode = .str mode ∧ sb.color = .str color ∧
      v = { modeClass := "status-value mode-" ++ js.toLowerCase mode
            modeShown := sb.mode
            colorShown := js.toUpperCase color
            brushShown := (sb.brushSize, "px")
            handClass := "status-value " ++
              (if sb.handDetected.truthy then "detected" else "not-detected")
            handShown := if sb.handDetected.truthy then "✓ Detected" else "✗ Not Detected"
            undoShown := if sb.canUndo.truthy then "YES" else "NO"
            redoShown := if sb.canRedo.truthy then "YES" else "NO" } := by
  obtain ⟨mode, color, brushSize, handDetected, canUndo, canRedo⟩ := sb
  cases mode <;> cases color <;>
    simp [StatusBar, callToLowerCase, callToUpperCase, bind, Except.bind, pure, Except.pure] at h ⊢
  exact h.symm

theorem statusBar_of_strings (js : StringMethods) (sb : StatusBarProps) (mode color : String)
    (hm : sb.mode = .str mode) (hc : sb.color = .str color) : ∃ v, StatusBar js sb = .ok v := by
  simp [StatusBar, hm, hc, callToLowerCase, callToUpperCase, bind, Except.bind, pure,
    Except.pure]

theorem props_agree (status : JSVal) :
    Except.map ToolbarProps.canUndo (App.toolbarProps status) =
      Except.map StatusBarProps.canUndo (App.statusBarProps status) ∧
    Except.map ToolbarProps.canRedo (App.toolbarProps status) =
      Except.map StatusBarProps.canRedo (App.statusBarProps status) ∧
    Except.map ToolbarProps.currentColor (App.toolbarProps status) =
      Except.map StatusBarProps.color (App.statusBarProps status) ∧
    Except.map ToolbarProps.brushSize (App.toolbarProps status) =
      Except.map StatusBarProps.brushSize (App.statusBarProps status) := by
  cases status <;> exact ⟨rfl, rfl, rfl, rfl⟩

/-- C4: the two status observers agree. For every status snapshot App passes the
same can_undo, can_redo, color and brush_size values to Toolbar and to
StatusBar (the two prop computations agree on every value of status, and on
the board the props are equal). StatusBar returns its view for every snapshot
whose mode and color are strings, and every view it returns shows Undo: YES
exactly when the Undo button of Toolbar is enabled and Redo: YES exactly when
the Redo button is enabled (for every value of the two fields, boolean or
not), shows the brush size given to Toolbar as brushSize (followed by px) and
shows the color given to Toolbar as currentColor (through toUpperCase). -/
theorem statusBar_agrees_with_toolbar (js : StringMethods) (s : AppState) (tb : ToolbarProps)
    (sb : StatusBarProps) (h : App.render s = .ok (.board tb sb)) :
    (∀ status : JSVal,
      Except.map ToolbarProps.canUndo (App.toolbarProps status) =
        Except.map StatusBarProps.canUndo (App.statusBarProps status) ∧
      Except.map ToolbarProps.canRedo (App.toolbarProps status) =
        Except.map StatusBarProps.canRedo (App.statusBarProps status) ∧
      Except.map ToolbarProps.currentColor (App.toolbarProps status) =
        Except.map StatusBarProps.color (App.statusBarProps status) ∧
      Except.map ToolbarProps.brushSize (App.toolbarProps status) =
        Except.map StatusBarProps.brushSize (App.statusBarProps status)) ∧
    s.status.getProp "can_undo" = .ok tb.canUndo ∧
    s.status.getProp "can_redo" = .ok tb.canRedo ∧
    sb.canUndo = tb.canUndo ∧ sb.canRedo = tb.canRedo ∧
    sb.color = tb.currentColor ∧ sb.brushSize = tb.brushSize ∧
    (∀ mode color, sb.mode = .str mode → sb.color = .str color →
      ∃ v, StatusBar js sb = .ok v) ∧
    (∀ v, StatusBar js sb = .ok v →
      (v.undoShown = "YES" ↔ (Toolbar tb).undo.disabled = false) ∧
      (v.undoShown = "NO" ↔ (Toolbar tb).undo.disabled = true) ∧
      (v.redoShown = "YES" ↔ (Toolbar tb).redo.disabled = false) ∧
      (v.redoShown = "NO" ↔ (Toolbar tb).redo.disabled = true) ∧
      v.brushShown = (tb.brushSize, "px") ∧
      (Toolbar tb).brushHeading = ("Brush Size: ", v.brushShown.1, "px") ∧
      ∃ color, tb.currentColor = .str color ∧ v.colorShown = js.toUpperCase color) := by
  obtain ⟨ht, hs⟩ := render_board_props h
  obtain ⟨tc, tbs, tu, tr⟩ := toolbarProps_fields ht
  obtain ⟨-, sc, sbs, -, su, sr⟩ := statusBarProps_fields hs
  have e1 : sb.canUndo = tb.canUndo := by rw [su] at tu; exact Except.ok.inj tu
  have e2 : sb.canRedo = tb.canRedo := by rw [sr] at tr; exact Except.ok.inj tr
  have e3 : sb.color = tb.currentColor := by rw [sc] at tc; exact Except.ok.inj tc
  have e4 : sb.brushSize = tb.brushSize := by rw [sbs] at tbs; exact Except.ok.inj tbs
  refine ⟨props_agree, tu, tr, e1, e2, e3, e4, statusBar_of_strings js sb, ?_⟩
  intro v hv
  obtain ⟨mode, color, -, hc, rfl⟩ := statusBar_ok hv
  refine ⟨?_, ?_, ?_, ?_, ?_, ?_, color, ?_, rfl⟩
  · rw [e1]
    simp [Toolbar, yes_no_eq_yes]
  · rw [e1]
    simp [Toolbar, yes_no_eq_no]
  · rw [e2]
    simp [Toolbar, yes_no_eq_yes]
  · rw [e2]
    simp [Toolbar, yes_no_eq_no]
  · simp [e4]
  · simp [Toolbar, e4]
  · rw [← e3, hc]

/-- Witness for C4: the board rendered from the initial status; StatusBar returns
a view there, which shows Undo: NO while Undo is disabled in Toolbar. -/
theorem statusBar_agrees_with_toolbar_witness :
    ∃ tb sb v, App.render boardState = .ok (.board tb sb) ∧
      StatusBar asciiMethods sb = .ok v ∧
      sb.canUndo = tb.canUndo ∧ sb.canRedo = tb.canRedo ∧
      sb.color = tb.currentColor ∧ sb.brushSize = tb.brushSize ∧
      (v.undoShown = "NO" ↔ (Toolbar tb).undo.disabled = true) :=
  ⟨_, _, _, rfl, rfl,
    (statusBar_agrees_with_toolbar asciiMethods boardState _ _ rfl).2.2.2.1,
    (statusBar_agrees_with_toolbar asciiMethods boardState _ _ rfl).2.2.2.2.1,
    (statusBar_agrees_with_toolbar asciiMethods boardState _ _ rfl).2.2.2.2.2.1,
    (statusBar_agrees_with_toolbar asciiMethods boardState _ _ rfl).2.2.2.2.2.2.1,
    ((statusBar_agrees_with_toolbar asciiMethods boardState _ _ rfl).2.2.2.2.2.2.2.2
      _ rfl).2.1⟩

/-- C5: before any status is received the status of App has exactly the six
fields mode, color, brush_size, can_undo, can_redo, hand_detected; mode is IDLE,
hand_detected is false, and can_undo and can_redo are the values derived for
the empty stroke log (h = length = 0), namely false, so Toolbar starts with both
Undo and Redo disabled. -/
theorem initial_status_is_fresh_session :
    App.initial.status = initialStatus ∧
    (System.initial.apply .mount).app.status = initialStatus ∧
    initialStatus.keys =
      ["mode", "color", "brush_size", "can_undo", "can_redo", "hand_detected"] ∧
    initialStatus.getProp "mode" = .ok (.str "IDLE") ∧
    initialStatus.getProp "hand_detected" = .ok (.bool false) ∧
    (StrokeLog.empty : StrokeLog Unit).h = 0 ∧
    (StrokeLog.empty : StrokeLog Unit).strokes.length = 0 ∧
    (StrokeLog.empty : StrokeLog Unit).can_undo = false ∧
    (StrokeLog.empty : StrokeLog Unit).can_redo = false ∧
    initialStatus.getProp "can_undo" = .ok (.bool (StrokeLog.empty : StrokeLog Unit).can_undo) ∧
    initialStatus.getProp "can_redo" = .ok (.bool (StrokeLog.empty : StrokeLog Unit).can_redo) ∧
    ∃ tb, App.toolbarProps initialStatus = .ok tb ∧
      (Toolbar tb).undo.disabled = true ∧ (Toolbar tb).redo.disabled = true :=
  ⟨rfl, rfl, rfl, rfl, rfl, rfl, rfl, rfl, rfl, rfl, rfl, _, rfl, rfl, rfl⟩

theorem apiCall_request_injective (a b : ApiCall) (h : a.request = b.request) : a = b := by
  cases a <;> cases b <;>
    simp [ApiCall.request, api.getStatusRequest, api.clearCanvasRequest, api.undoRequest,
      api.redoRequest, api.perfectShapeRequest, api.changeColorRequest,
      api.changeBrushSizeRequest, api.saveCanvasRequest] at h ⊢ <;>
    exact h

theorem controlCommand_call_injective (a b : ControlCommand) (h : a.call = b.call) : a = b := by
  cases a <;> cases b <;> simp [ControlCommand.call] at h ⊢ <;> exact h

/-- C2: every ControlCommand is carried by one request of the API service and the
mapping is injective; the five commands without argument are body-less POSTs to
/api/clear, /api/undo, /api/redo, /api/perfect-shape and /api/save, SetColor c
is POST /api/color with body (color: c), SetBrushSize s is POST /api/brush-size
with body (size: s); two commands with the same path are the same variant, no
command uses the path of getStatus (GET /api/status), and the argument can be
read back from the body unchanged. -/
theorem control_commands_map_to_distinct_requests :
    (∀ a b : ControlCommand, a.call.request = b.call.request → a = b) ∧
    (∀ a b : ApiCall, a.request = b.request → a = b) ∧
    ControlCommand.ClearCanvas.call.request = ⟨.POST, "/api/clear", none⟩ ∧
    ControlCommand.Undo.call.request = ⟨.POST, "/api/undo", none⟩ ∧
    ControlCommand.Redo.call.request = ⟨.POST, "/api/redo", none⟩ ∧
    ControlCommand.PerfectShape.call.request = ⟨.POST, "/api/perfect-shape", none⟩ ∧
    ControlCommand.Save.call.request = ⟨.POST, "/api/save", none⟩ ∧
    (∀ c, (ControlCommand.SetColor c).call.request =
      ⟨.POST, "/api/color", some (.obj [("color", c)])⟩) ∧
    (∀ s, (ControlCommand.SetBrushSize s).call.request =
      ⟨.POST, "/api/brush-size", some (.obj [("size", s)])⟩) ∧
    (∀ c, ((ControlCommand.SetColor c).call.request.data.map
      fun body => body.getProp "color") = some (.ok c)) ∧
    (∀ s, ((ControlCommand.SetBrushSize s).call.request.data.map
      fun body => body.getProp "size") = some (.ok s)) ∧
    ApiCall.getStatus.request = ⟨.GET, "/api/status", none⟩ ∧
    (∀ a : ControlCommand, a.call.request.url ≠ ApiCall.getStatus.request.url) ∧
    (∀ a b : ControlCommand, a.call.request.url = b.call.request.url →
      a = b ∨ (∃ c d, a = .SetColor c ∧ b = .SetColor d) ∨
        (∃ c d, a = .SetBrushSize c ∧ b = .SetBrushSize d)) := by
  refine ⟨fun a b h => controlCommand_call_injective a b (apiCall_request_injective _ _ h),
    apiCall_request_injective, rfl, rfl, rfl, rfl, rfl, fun _ => rfl, fun _ => rfl,
    fun _ => rfl, fun _ => rfl, rfl, ?_, ?_⟩
  · intro a
    cases a <;> simp [ControlCommand.call, ApiCall.request, api.getStatusRequest,
      api.clearCanvasRequest, api.undoRequest, api.redoRequest, api.perfectShapeRequest,
      api.changeColorRequest, api.changeBrushSizeRequest, api.saveCanvasRequest]
  · intro a b h
    cases a <;> cases b <;>
      simp [ControlCommand.call, ApiCall.request, api.clearCanvasRequest, api.undoRequest,
        api.redoRequest, api.perfectShapeRequest, api.changeColorRequest,
        api.changeBrushSizeRequest, api.saveCanvasRequest] at h ⊢

/-- Witness for C2: two SetColor commands with the same request carry the same color. -/
theorem control_commands_map_to_distinct_requests_witness :
    ControlCommand.SetColor (.str "blue") = ControlCommand.SetColor (.str "blue") :=
  control_commands_map_to_distinct_requests.1 _ _ rfl

theorem send_result (http : Transport) (request : Request) (text : String) :
    (∀ r, http request = .ok r → (api.send http request text).result = .ok r.data) ∧
    (∀ e, http request = .error e → (api.send http request text).result = .error e) := by
  constructor
  · intro r h
    simp [api.send, h]
  · intro e h
    simp [api.send, h]

theorem apiCall_run_eq_send (http : Transport) (c : ApiCall) :
    ∃ text, c.run http = api.send http c.request text := by
  cases c <;> exact ⟨_, rfl⟩

theorem backendAction_run (http : Transport) (s : AppState) (a : BackendAction) :
    (∃ s1, (a.run http s).result = .ok s1) ∧
    (∀ e, http a.call.request = .error e → (a.run http s).result = .ok s) := by
  cases a
  case poll =>
    cases hr : http api.getStatusRequest <;>
      simp [BackendAction.run, BackendAction.call, ApiCall.request, App.pollStatus,
        api.getStatus, api.send, hr]
  case clear =>
    cases hr : http api.clearCanvasRequest <;>
      simp [BackendAction.run, BackendAction.call, ApiCall.request, App.handleClearCanvas,
        api.clearCanvas, api.send, hr]
  case undo =>
    cases hr : http api.undoRequest <;>
      simp [BackendAction.run, BackendAction.call, ApiCall.request, App.handleUndo,
        api.undo, api.send, hr]
  case redo =>
    cases hr : http api.redoRequest <;>
      simp [BackendAction.run, BackendAction.call, ApiCall.request, App.handleRedo,
        api.redo, api.send, hr]
  case perfectShape =>
    cases hr : http api.perfectShapeRequest with
    | error e =>
      simp [BackendAction.run, BackendAction.call, ApiCall.request, App.handlePerfectShape,
        api.perfectShape, api.send, hr]
    | ok r =>
      cases hm : r.data.getProp "message" <;>
        simp [BackendAction.run, BackendAction.call, ApiCall.request, App.handlePerfectShape,
          api.perfectShape, api.send, hr, hm]
  case changeColor color =>
    cases hr : http (api.changeColorRequest color) <;>
      simp [BackendAction.run, BackendAction.call, ApiCall.request, App.handleChangeColor,
        api.changeColor, api.send, hr]
  case changeBrushSize size =>
    cases hr : http (api.changeBrushSizeRequest size) <;>
      simp [BackendAction.run, BackendAction.call, ApiCall.request, App.handleChangeBrushSize,
        api.changeBrushSize, api.send, hr]
  case save =>
    cases hr : http api.saveCanvasRequest with
    | error e =>
      simp [BackendAction.run, BackendAction.call, ApiCall.request, App.handleSaveCanvas,
        api.saveCanvas, api.send, hr]
    | ok r =>
      cases hm : r.data.getProp "filename" <;>
        simp [BackendAction.run, BackendAction.call, ApiCall.request, App.handleSaveCanvas,
          api.saveCanvas, api.send, hr, hm]

/-- C3: every function of the API service returns response.data when its request
succeeds and rethrows the error of the request when it fails, so it fails iff
the request fails; the seven control handlers of App and the status poll never
throw, and when the request fails they leave isConnected, videoStarted and
status exactly as they were. -/
theorem failed_backend_call_is_not_fatal (http : Transport) (s : AppState) :
    (∀ c : ApiCall,
      (∀ r, http c.request = .ok r → (c.run http).result = .ok r.data) ∧
      (∀ e, http c.request = .error e → (c.run http).result = .error e) ∧
      ((∃ e, (c.run http).result = .error e) ↔ ∃ e, http c.request = .error e)) ∧
    (∀ a : BackendAction,
      (∃ s1, (a.run http s).result = .ok s1) ∧
      (∀ e, http a.call.request = .error e → (a.run http s).result = .ok s)) := by
  refine ⟨fun c => ?_, fun a => backendAction_run http s a⟩
  obtain ⟨text, ht⟩ := apiCall_run_eq_send http c
  rw [ht]
  obtain ⟨hok, herr⟩ := send_result http c.request text
  refine ⟨hok, herr, ?_, ?_⟩
  · rintro ⟨e, he⟩
    cases hr : http c.request with
    | error e1 => exact ⟨e1, rfl⟩
    | ok r => rw [hok r hr] at he; cases he
  · rintro ⟨e, he⟩
    exact ⟨e, herr e he⟩

/-- Witness for C3: with a failing transport the save handler and the poll return
normally and leave the initial state as it was. -/
theorem failed_backend_call_is_not_fatal_witness :
    (BackendAction.save.run failingTransport App.initial).result = .ok App.initial ∧
    (BackendAction.poll.run failingTransport App.initial).result = .ok App.initial :=
  ⟨((failed_backend_call_is_not_fatal failingTransport App.initial).2 .save).2 _ rfl,
    ((failed_backend_call_is_not_fatal failingTransport App.initial).2 .poll).2 _ rfl⟩

/-! ## The stroke log -/

namespace StrokeLog

variable {σ : Type}

theorem Redo_of_h_eq_length (l : StrokeLog σ) (h : l.h = l.strokes.length) : l.Redo.1 = l := by
  simp [Redo, h]

theorem redoTimes_of_h_eq_length (n : Nat) (l : StrokeLog σ) (h : l.h = l.strokes.length) :
    redoTimes n l = l := by
  induction n with
  | zero => rfl
  | succ k ih => rw [redoTimes, Redo_of_h_eq_length l h, ih]

theorem Undo_strokes (l : StrokeLog σ) : l.Undo.1.strokes = l.strokes := by
  unfold Undo
  split <;> rfl

theorem Redo_strokes (l : StrokeLog σ) : l.Redo.1.strokes = l.strokes := by
  unfold Redo
  split <;> rfl

theorem moves_strokes (ms : List Move) (l : StrokeLog σ) : (moves ms l).strokes = l.strokes := by
  induction ms generalizing l with
  | nil => rfl
  | cons m ms ih =>
    cases m
    · rw [moves, ih, Undo_strokes]
    · rw [moves, ih, Redo_strokes]

theorem Append_h (l : StrokeLog σ) (c : σ) : (l.Append c).h = (l.Append c).strokes.length := rfl

end StrokeLog

/-- C6: Append after Undo discards the redo future. For every log (strokes s,
pointer h) and stroke c, Append c yields the strokes s[0..h) followed by c with
h equal to the new length; the visible strokes are s[0..h) followed by c;
can_redo is false; any number of Redo calls leaves the log as it is, and any
sequence of Undo and Redo calls keeps the same strokes and shows a leading part
of them, so a discarded stroke never comes back. Appending A, B, undoing and
appending C shows A, C with can_redo false. -/
theorem append_discards_redo_future {σ : Type} (l : StrokeLog σ) (c : σ) (A B C : σ) :
    (l.Append c).strokes = l.strokes.take l.h ++ [c] ∧
    (l.Append c).h = (l.strokes.take l.h ++ [c]).length ∧
    (l.Append c).VisibleStrokes = l.strokes.take l.h ++ [c] ∧
    (l.Append c).VisibleStrokes = l.VisibleStrokes ++ [c] ∧
    (l.Append c).can_redo = false ∧
    (∀ n, StrokeLog.redoTimes n (l.Append c) = l.Append c) ∧
    (∀ n, (StrokeLog.redoTimes n (l.Append c)).VisibleStrokes = l.strokes.take l.h ++ [c]) ∧
    (∀ ms, (StrokeLog.moves ms (l.Append c)).strokes = l.strokes.take l.h ++ [c]) ∧
    (∀ ms, (StrokeLog.moves ms (l.Append c)).VisibleStrokes <+: l.strokes.take l.h ++ [c]) ∧
    ((((StrokeLog.empty.Append A).Append B).Undo.1).Append C).VisibleStrokes = [A, C] ∧
    ((((StrokeLog.empty.Append A).Append B).Undo.1).Append C).can_redo = false ∧
    (∀ n, (StrokeLog.redoTimes n
      ((((StrokeLog.empty.Append A).Append B).Undo.1).Append C)).VisibleStrokes = [A, C]) := by
  have hvis : (l.Append c).VisibleStrokes = l.strokes.take l.h ++ [c] := by
    simp [StrokeLog.VisibleStrokes, StrokeLog.Append]
  have hredo : ∀ n, StrokeLog.redoTimes n (l.Append c) = l.Append c := fun n =>
    StrokeLog.redoTimes_of_h_eq_length n _ (StrokeLog.Append_h l c)
  refine ⟨rfl, rfl, hvis, hvis, ?_, hredo, ?_, ?_, ?_, rfl, ?_, ?_⟩
  · simp [StrokeLog.can_redo, StrokeLog.Append]
  · intro n
    rw [hredo n, hvis]
  · intro ms
    rw [StrokeLog.moves_strokes]
    rfl
  · intro ms
    have hs := StrokeLog.moves_strokes ms (l.Append c)
    unfold StrokeLog.VisibleStrokes
    rw [hs]
    exact List.take_prefix _ _
  · simp [StrokeLog.can_redo, StrokeLog.Append]
  · intro n
    rw [StrokeLog.redoTimes_of_h_eq_length n _ (StrokeLog.Append_h _ C)]
    rfl

/-! ## The mode state machine -/

namespace Session

variable {P : Type}

theorem step_lastLabel (n : Nat) (s : Session P) (e : GestureEvent P) :
    (step n s e).lastLabel = some e.label := rfl

theorem commit_color (s : Session P) : s.commit.color = s.color := by
  unfold commit
  split
  · split <;> rfl
  · rfl

theorem commit_lastLabel (s : Session P) : s.commit.lastLabel = s.lastLabel := by
  unfold commit
  split
  · split <;> rfl
  · rfl

theorem stroke_color (s : Session P) (mode : Mode) (tool : Tool) (e : GestureEvent P) :
    (s.stroke mode tool e).color = s.color := by
  unfold stroke
  split
  · split <;> rfl
  · exact commit_color s

/-- The color after a step is the color before it moved by the action of the label. -/
theorem step_color (n : Nat) (s : Session P) (e : GestureEvent P) :
    (step n s e).color = cycle n s.color (colorAction s.lastLabel e.label) := by
  unfold step
  cases e.label <;>
    simp [stroke_color, commit_color, commit_lastLabel, colorAction, cycle]

theorem succ_mod_of_lt {n c : Nat} (hc : c < n) :
    (c + 1) % n = if c + 1 < n then c + 1 else 0 := by
  split
  · next h => exact Nat.mod_eq_of_lt h
  · next h =>
    have : c + 1 = n := by omega
    rw [this, Nat.mod_self]

theorem pred_mod_of_lt {n c : Nat} (hc : c < n) :
    (c + n - 1) % n = if c = 0 then n - 1 else c - 1 := by
  split
  · next h =>
    subst h
    rw [Nat.zero_add]
    exact Nat.mod_eq_of_lt (by omega)
  · next h =>
    have e : c + n - 1 = (c - 1) + n := by omega
    rw [e, Nat.add_mod_right]
    exact Nat.mod_eq_of_lt (by omega)

theorem cycle_lt {n c : Nat} (hc : c < n) (a : ColorAction) : cycle n c a < n := by
  cases a
  · exact hc
  · exact Nat.mod_lt _ (by omega)
  · exact Nat.mod_lt _ (by omega)

/-- In a palette of at least three colors the successor of a color differs from
the color itself and from its predecessor. -/
theorem cycle_eq_succ_iff {n c : Nat} (hn : 3 ≤ n) (hc : c < n) (a : ColorAction) :
    cycle n c a = (c + 1) % n ↔ a = .next := by
  cases a
  · simp only [cycle, succ_mod_of_lt hc]
    constructor
    · intro h
      split at h <;> omega
    · intro h
      cases h
  · simp [cycle]
  · simp only [cycle, succ_mod_of_lt hc, pred_mod_of_lt hc]
    constructor
    · intro h
      split at h <;> split at h <;> omega
    · intro h
      cases h

theorem colorAction_eq_next_iff (last : Option Gesture) (label : Gesture) :
    colorAction last label = .next ↔
      (label == Gesture.THREE_FINGERS && last != some Gesture.THREE_FINGERS) = true := by
  cases label <;> cases last <;> simp [colorAction]
  all_goals (rename_i g; cases g <;> simp)

theorem colorAction_eq_previous_iff (last : Option Gesture) (label : Gesture) :
    colorAction last label = .previous ↔
      (label == Gesture.FOUR_FINGERS && last != some Gesture.FOUR_FINGERS) = true := by
  cases label <;> cases last <;> simp [colorAction]
  all_goals (rename_i g; cases g <;> simp)

theorem colorAdvances_eq_countP (n : Nat) (hn : 3 ≤ n) (s : Session P) (hc : s.color < n)
    (events : List (GestureEvent P)) :
    colorAdvances n s events =
      ((s.lastLabel :: (events.map fun e => e.label).map some).zip
        (events.map fun e => e.label)).countP fun pair =>
          pair.2 == Gesture.THREE_FINGERS && pair.1 != some Gesture.THREE_FINGERS := by
  induction events generalizing s with
  | nil => simp [colorAdvances]
  | cons e es ih =>
    have hc1 : (step n s e).color < n := by
      rw [step_color]
      exact cycle_lt hc _
    rw [colorAdvances, ih (step n s e) hc1, step_lastLabel]
    simp only [List.map_cons, List.zip_cons_cons, List.countP_cons]
    rw [Nat.add_comm]
    congr 1
    rw [step_color]
    by_cases h : colorAction s.lastLabel e.label = .next
    · rw [if_pos ((cycle_eq_succ_iff hn hc _).2 h), if_pos ((colorAction_eq_next_iff _ _).1 h)]
    · rw [if_neg (fun h1 => h ((cycle_eq_succ_iff hn hc _).1 h1)),
        if_neg (fun h1 => h ((colorAction_eq_next_iff _ _).2 h1))]

theorem next_arith (n c a m : Nat) :
    ((c + 1) % n + a + m) % n = (c + (a + 1) + m) % n := by
  rw [Nat.add_assoc ((c + 1) % n), Nat.mod_add_mod]
  congr 1
  omega

theorem prev_arith (n c a b : Nat) (hn : 0 < n) :
    ((c + n - 1) % n + a + (n - 1) * b) % n = (c + (a + 0) + (n - 1) * (b + 1)) % n := by
  rw [Nat.add_assoc ((c + n - 1) % n), Nat.mod_add_mod, Nat.mul_add, Nat.mul_one]
  congr 1
  generalize (n - 1) * b = m
  omega

/-- The color after a run: each THREE_FINGERS onset moves it one entry forward
and each FOUR_FINGERS onset one entry backward, around the palette. -/
theorem run_color (n : Nat) (s : Session P) (hc : s.color < n)
    (events : List (GestureEvent P)) :
    (run n s events).color =
      (s.color
        + ((s.lastLabel :: (events.map fun e => e.label).map some).zip
            (events.map fun e => e.label)).countP (fun pair =>
              pair.2 == Gesture.THREE_FINGERS && pair.1 != some Gesture.THREE_FINGERS)
        + (n - 1) * ((s.lastLabel :: (events.map fun e => e.label).map some).zip
            (events.map fun e => e.label)).countP (fun pair =>
              pair.2 == Gesture.FOUR_FINGERS && pair.1 != some Gesture.FOUR_FINGERS)) % n := by
  induction events generalizing s with
  | nil => simp [run, Nat.mod_eq_of_lt hc]
  | cons e es ih =>
    have hc1 : (step n s e).color < n := by
      rw [step_color]
      exact cycle_lt hc _
    rw [run, ih (step n s e) hc1, step_lastLabel, step_color]
    simp only [List.map_cons, List.zip_cons_cons, List.countP_cons]
    generalize ((some e.label :: (es.map fun e => e.label).map some).zip
      (es.map fun e => e.label)).countP (fun pair =>
        pair.2 == Gesture.THREE_FINGERS && pair.1 != some Gesture.THREE_FINGERS) = a
    generalize ((some e.label :: (es.map fun e => e.label).map some).zip
      (es.map fun e => e.label)).countP (fun pair =>
        pair.2 == Gesture.FOUR_FINGERS && pair.1 != some Gesture.FOUR_FINGERS) = b
    have hn : 0 < n := by omega
    cases hact : colorAction s.lastLabel e.label
    · have h3 : ¬ (e.label == Gesture.THREE_FINGERS &&
          s.lastLabel != some Gesture.THREE_FINGERS) = true := fun h1 => by
        have := (colorAction_eq_next_iff _ _).2 h1
        rw [hact] at this
        cases this
      have h4 : ¬ (e.label == Gesture.FOUR_FINGERS &&
          s.lastLabel != some Gesture.FOUR_FINGERS) = true := fun h1 => by
        have := (colorAction_eq_previous_iff _ _).2 h1
        rw [hact] at this
        cases this
      rw [if_neg h3, if_neg h4]
      rfl
    · have h3 := (colorAction_eq_next_iff _ _).1 hact
      have h4 : ¬ (e.label == Gesture.FOUR_FINGERS &&
          s.lastLabel != some Gesture.FOUR_FINGERS) = true := fun h1 => by
        have := (colorAction_eq_previous_iff _ _).2 h1
        rw [hact] at this
        cases this
      rw [if_pos h3, if_neg h4]
      exact next_arith n s.color a ((n - 1) * b)
    · have h4 := (colorAction_eq_previous_iff _ _).1 hact
      have h3 : ¬ (e.label == Gesture.THREE_FINGERS &&
          s.lastLabel != some Gesture.THREE_FINGERS) = true := fun h1 => by
        have := (colorAction_eq_next_iff _ _).2 h1
        rw [hact] at this
        cases this
      rw [if_neg h3, if_pos h4]
      exact prev_arith n s.color a b hn

theorem onsets_replicate_three (k : Nat) :
    threeFingerOnsets (List.replicate (k + 1) Gesture.THREE_FINGERS) = 1 := by
  have h : ∀ j : Nat, ((some Gesture.THREE_FINGERS ::
      (List.replicate j Gesture.THREE_FINGERS).map some).zip
        (List.replicate j Gesture.THREE_FINGERS)).countP (fun pair =>
          pair.2 == Gesture.THREE_FINGERS && pair.1 != some Gesture.THREE_FINGERS) = 0 := by
    intro j
    induction j with
    | zero => rfl
    | succ j ih =>
      simp only [List.replicate_succ, List.map_cons, List.zip_cons_cons, List.countP_cons, ih]
      rfl
  unfold threeFingerOnsets
  simp only [List.replicate_succ, List.map_cons, List.zip_cons_cons, List.countP_cons, h]
  rfl

end Session

/-- C7: the color-cycle gesture is edge-triggered. For a palette of n colors
(at least three, so that a move to the next entry can be told from no move and
from a move back) and every sequence of gesture events fed to a fresh session,
the number of steps at which the color moves to the next palette entry equals
the number of positions whose label is THREE_FINGERS and whose preceding
label, if any, is not THREE_FINGERS; the color at the end is the initial one
moved forward once per such position and backward once per FOUR_FINGERS onset.
A gesture held over k + 1 frames advances the color once, and THREE, THREE,
THREE, ONE, THREE advances it exactly twice. -/
theorem color_cycle_is_edge_triggered {P : Type} (n color brush_size : Nat)
    (hn : 3 ≤ n) (hc : color < n) (events : List (GestureEvent P)) (p : P) (t k : Nat) :
    Session.colorAdvances n (Session.fresh color brush_size) events =
      threeFingerOnsets (events.map fun e => e.label) ∧
    (Session.run n (Session.fresh color brush_size) events).color =
      (color + threeFingerOnsets (events.map fun e => e.label)
        + (n - 1) * fourFingerOnsets (events.map fun e => e.label)) % n ∧
    Session.colorAdvances n (Session.fresh color brush_size)
      (List.replicate (k + 1) ⟨.THREE_FINGERS, p, t⟩) = 1 ∧
    (Session.run n (Session.fresh color brush_size)
      (List.replicate (k + 1) ⟨.THREE_FINGERS, p, t⟩)).color = (color + 1) % n ∧
    Session.colorAdvances n (Session.fresh color brush_size)
      [⟨.THREE_FINGERS, p, t⟩, ⟨.THREE_FINGERS, p, t⟩, ⟨.THREE_FINGERS, p, t⟩,
        ⟨.ONE_FINGER, p, t⟩, ⟨.THREE_FINGERS, p, t⟩] = 2 ∧
    threeFingerOnsets [.THREE_FINGERS, .THREE_FINGERS, .THREE_FINGERS, .ONE_FINGER,
      .THREE_FINGERS] = 2 ∧
    (Session.run n (Session.fresh color brush_size)
      [⟨.THREE_FINGERS, p, t⟩, ⟨.THREE_FINGERS, p, t⟩, ⟨.THREE_FINGERS, p, t⟩,
        ⟨.ONE_FINGER, p, t⟩, ⟨.THREE_FINGERS, p, t⟩]).color = (color + 2) % n := by
  have hcount : ∀ evs : List (GestureEvent P),
      Session.colorAdvances n (Session.fresh color brush_size) evs =
        threeFingerOnsets (evs.map fun e => e.label) := fun evs =>
    Session.colorAdvances_eq_countP n hn _ hc evs
  have hcolor : ∀ evs : List (GestureEvent P),
      (Session.run n (Session.fresh color brush_size) evs).color =
        (color + threeFingerOnsets (evs.map fun e => e.label)
          + (n - 1) * fourFingerOnsets (evs.map fun e => e.label)) % n := fun evs =>
    Session.run_color n _ hc evs
  have hrep : (List.replicate (k + 1) (⟨.THREE_FINGERS, p, t⟩ : GestureEvent P)).map
      (fun e => e.label) = List.replicate (k + 1) Gesture.THREE_FINGERS := by
    simp
  have hfour : fourFingerOnsets (List.replicate (k + 1) Gesture.THREE_FINGERS) = 0 := by
    unfold fourFingerOnsets
    rw [List.countP_eq_zero]
    intro pair hmem
    have := (List.of_mem_zip hmem).2
    rw [List.mem_replicate] at this
    simp [this.2]
  refine ⟨hcount events, hcolor events, ?_, ?_, ?_, by decide, ?_⟩
  · rw [hcount, hrep, Session.onsets_replicate_three]
  · rw [hcolor, hrep, Session.onsets_replicate_three, hfour]
    simp
  · rw [hcount]
    rfl
  · rw [hcolor]
    have h3 : threeFingerOnsets (List.map (fun e => e.label)
        [(⟨.THREE_FINGERS, p, t⟩ : GestureEvent P), ⟨.THREE_FINGERS, p, t⟩,
          ⟨.THREE_FINGERS, p, t⟩, ⟨.ONE_FINGER, p, t⟩, ⟨.THREE_FINGERS, p, t⟩]) = 2 := by
      rfl
    have h4 : fourFingerOnsets (List.map (fun e => e.label)
        [(⟨.THREE_FINGERS, p, t⟩ : GestureEvent P), ⟨.THREE_FINGERS, p, t⟩,
          ⟨.THREE_FINGERS, p, t⟩, ⟨.ONE_FINGER, p, t⟩, ⟨.THREE_FINGERS, p, t⟩]) = 0 := by
      rfl
    rw [h3, h4]
    simp

/-- Witness for C7: the palette of six colors, starting from the first one, with
the five-event sequence of the specification. -/
theorem color_cycle_is_edge_triggered_witness :
    3 ≤ 6 ∧ 0 < 6 ∧
    Session.colorAdvances 6 (Session.fresh 0 5)
      [(⟨.THREE_FINGERS, (), 0⟩ : GestureEvent Unit), ⟨.THREE_FINGERS, (), 1⟩,
        ⟨.THREE_FINGERS, (), 2⟩, ⟨.ONE_FINGER, (), 3⟩, ⟨.THREE_FINGERS, (), 4⟩] = 2 ∧
    (Session.run 6 (Session.fresh 0 5)
      [(⟨.THREE_FINGERS, (), 0⟩ : GestureEvent Unit), ⟨.THREE_FINGERS, (), 1⟩,
        ⟨.THREE_FINGERS, (), 2⟩, ⟨.ONE_FINGER, (), 3⟩, ⟨.THREE_FINGERS, (), 4⟩]).color = 2 :=
  ⟨by decide, by decide,
    ((color_cycle_is_edge_triggered 6 0 5 (by decide) (by decide)
      [(⟨.THREE_FINGERS, (), 0⟩ : GestureEvent Unit), ⟨.THREE_FINGERS, (), 1⟩,
        ⟨.THREE_FINGERS, (), 2⟩, ⟨.ONE_FINGER, (), 3⟩, ⟨.THREE_FINGERS, (), 4⟩] () 0 0).1).trans
      (by decide),
    ((color_cycle_is_edge_triggered 6 0 5 (by decide) (by decide)
      [(⟨.THREE_FINGERS, (), 0⟩ : GestureEvent Unit), ⟨.THREE_FINGERS, (), 1⟩,
        ⟨.THREE_FINGERS, (), 2⟩, ⟨.ONE_FINGER, (), 3⟩, ⟨.THREE_FINGERS, (), 4⟩] () 0 0).2.1).trans
      (by decide)⟩

/-! ## The WebSocket service -/

/-- C9 (as amended): startVideo emits start_video, and stopVideo emits stop_video,
exactly when socket is non-null and isConnected is true, and otherwise returns
the service unchanged; disconnect() leaves socket = null whatever the prior
state, leaves isConnected = false whenever the socket was non-null or
isConnected was already false, changes nothing when socket is already null, and
is idempotent; after disconnect() startVideo, stopVideo and onVideoFrame are
no-ops. -/
theorem service_guards (svc : WebSocketService) :
    (∀ sock, svc.socket = some sock → svc.isConnected = true →
      svc.startVideo = ⟨some (sock.emit "start_video"), true⟩ ∧
      svc.stopVideo = ⟨some (sock.emit "stop_video"), true⟩) ∧
    ((svc.socket = none ∨ svc.isConnected = false) →
      svc.startVideo = svc ∧ svc.stopVideo = svc) ∧
    (svc.startVideo.emitted ≠ svc.emitted ↔ (svc.socket ≠ none ∧ svc.isConnected = true)) ∧
    (svc.stopVideo.emitted ≠ svc.emitted ↔ (svc.socket ≠ none ∧ svc.isConnected = true)) ∧
    svc.disconnect.socket = none ∧
    ((svc.socket ≠ none ∨ svc.isConnected = false) → svc.disconnect.isConnected = false) ∧
    (svc.socket = none → svc.disconnect = svc) ∧
    svc.disconnect.disconnect = svc.disconnect ∧
    svc.disconnect.startVideo = svc.disconnect ∧
    svc.disconnect.stopVideo = svc.disconnect ∧
    svc.disconnect.onVideoFrame = svc.disconnect := by
  obtain ⟨socket, isConnected⟩ := svc
  cases socket with
  | none =>
    cases isConnected <;>
      simp [WebSocketService.startVideo, WebSocketService.stopVideo,
        WebSocketService.disconnect, WebSocketService.onVideoFrame, WebSocketService.emitted]
  | some sock =>
    cases isConnected <;>
      simp [WebSocketService.startVideo, WebSocketService.stopVideo,
        WebSocketService.disconnect, WebSocketService.onVideoFrame, WebSocketService.emitted,
        Socket.emit]

/-- Witness for C9 (as amended): a connected service emits start_video, and a
disconnect() of it leaves socket = null and isConnected = false. -/
theorem service_guards_witness :
    (WebSocketService.mk (some Socket.create) true).startVideo =
      ⟨some (Socket.create.emit "start_video"), true⟩ ∧
    (WebSocketService.mk (some Socket.create) true).disconnect.isConnected = false :=
  ⟨((service_guards ⟨some Socket.create, true⟩).1 _ rfl rfl).1,
    (service_guards ⟨some Socket.create, true⟩).2.2.2.2.2.1 (Or.inl (by decide))⟩

/-- Counterexample to C9 as stated: from socket = null and isConnected = true,
disconnect() leaves isConnected = true. -/
theorem disconnect_keeps_isConnected_without_socket :
    ¬ ∀ svc : WebSocketService,
      svc.disconnect.socket = none ∧ svc.disconnect.isConnected = false := by
  intro hall
  exact absurd (hall ⟨none, true⟩).2 (by decide)

/-! ## App and the WebSocket service together -/

theorem WebSocketService.startVideo_of_connected (svc : WebSocketService) (sock : Socket)
    (h1 : svc.socket = some sock) (h2 : svc.isConnected = true) :
    svc.startVideo = ⟨some (sock.emit "start_video"), true⟩ := by
  obtain ⟨socket, isConnected⟩ := svc
  simp only at h1 h2
  subst h1; subst h2
  rfl

theorem System.inv_initial : System.initial.Inv := by
  constructor <;> simp [System.initial, App.initial]

theorem System.inv_apply (s : System) (e : Step) (hinv : s.Inv) (hen : s.enabled e = true) :
    (s.apply e).Inv := by
  obtain ⟨ha, hb, hc⟩ := hinv
  cases e
  case mount => constructor <;> simp [System.apply, App.initial]
  case socketConnect =>
    cases hs : s.service.socket with
    | none => simp [System.enabled, hs] at hen
    | some sock =>
      simp only [System.enabled, hs, Bool.not_eq_true'] at hen
      have hnot : s.app.videoStarted = true → False := by
        intro hv
        obtain ⟨sock1, h1, h2, -⟩ := hb (ha hv)
        rw [hs] at h1
        cases h1
        rw [hen] at h2
        cases h2
      constructor
      · intro _
        rfl
      · intro _
        exact ⟨sock.fireConnect, by simp [System.apply, hs, WebSocketService.onSocketConnect],
          rfl, rfl⟩
      · intro hv
        exact absurd hv hnot
  case socketDisconnect =>
    constructor <;> simp [System.apply, App.onDisconnect]
  case clickStart =>
    simp only [System.enabled, System.startOffered, Bool.and_eq_true, Bool.not_eq_true',
      ] at hen
    obtain ⟨⟨-, hconn⟩, -⟩ := hen
    obtain ⟨sock, h1, h2, h3⟩ := hb hconn
    have hsvc := WebSocketService.startVideo_of_connected s.service sock h1 h3
    constructor
    · intro _
      exact hconn
    · intro _
      exact ⟨sock.emit "start_video", by simp [System.apply, App.handleStartVideo, hsvc],
        h2, by simp [System.apply, App.handleStartVideo, hsvc]⟩
    · intro _
      exact ⟨sock.emit "start_video", by simp [System.apply, App.handleStartVideo, hsvc],
        by simp [Socket.emit, startedSinceConnect]⟩
  case unmount =>
    cases hs : s.service.socket with
    | none =>
      have hnc : s.app.isConnected = false := by
        cases hic : s.app.isConnected with
        | false => rfl
        | true =>
          obtain ⟨sock1, h1, -, -⟩ := hb hic
          rw [hs] at h1
          cases h1
      have hnv : s.app.videoStarted = false := by
        cases hvs : s.app.videoStarted with
        | false => rfl
        | true => rw [ha hvs] at hnc; cases hnc
      constructor <;> simp [System.apply, hs, hnc, hnv]
    | some sock =>
      cases hcn : sock.connected with
      | true => constructor <;> simp [System.apply, hs, hcn, App.onDisconnect]
      | false =>
        have hnc : s.app.isConnected = false := by
          cases hic : s.app.isConnected with
          | false => rfl
          | true =>
            obtain ⟨sock1, h1, h2, -⟩ := hb hic
            rw [hs] at h1
            cases h1
            rw [hcn] at h2
            cases h2
        have hnv : s.app.videoStarted = false := by
          cases hvs : s.app.videoStarted with
          | false => rfl
          | true => rw [ha hvs] at hnc; cases hnc
        constructor <;> simp [System.apply, hs, hcn, hnc, hnv]

theorem System.inv_of_reachable (s : System) (h : Reachable s) : s.Inv := by
  induction h with
  | initial => exact System.inv_initial
  | step s e _ hen ih => exact System.inv_apply s e ih hen

/-- C8: in every state reachable by mount, the connect and disconnect events of
the socket, a click on Start (offered only when isConnected and not
videoStarted) and unmount: videoStarted implies that App is connected and that
start_video was emitted on the socket since its most recent connect event; a
disconnect event resets videoStarted; and whenever Start is offered the socket
of the service is non-null and its isConnected is true, so the click emits
start_video. -/
theorem video_started_implies_connected_and_emitted (s : System) (h : Reachable s) :
    (s.app.videoStarted = true → s.app.isConnected = true) ∧
    (s.app.videoStarted = true →
      ∃ sock, s.service.socket = some sock ∧ startedSinceConnect sock.trace = true) ∧
    (s.apply .socketDisconnect).app.videoStarted = false ∧
    (s.startOffered = true →
      ∃ sock, s.service.socket = some sock ∧ s.service.isConnected = true ∧
        (s.apply .clickStart).service.socket = some (sock.emit "start_video") ∧
        (s.apply .clickStart).app.videoStarted = true) := by
  obtain ⟨ha, hb, hc⟩ := System.inv_of_reachable s h
  refine ⟨ha, hc, rfl, ?_⟩
  intro hoff
  simp only [System.startOffered, Bool.and_eq_true, Bool.not_eq_true'] at hoff
  obtain ⟨sock, h1, -, h3⟩ := hb hoff.1.2
  refine ⟨sock, h1, h3, ?_, rfl⟩
  simp [System.apply, App.handleStartVideo,
    WebSocketService.startVideo_of_connected s.service sock h1 h3]

theorem reachable_startedSystem : Reachable startedSystem :=
  .step _ .clickStart (.step _ .socketConnect (.step _ .mount .initial rfl) rfl) rfl

/-- Witness for C8: after mount, connect and a click on Start the video is
started, App is connected and start_video is on the trace of the socket. -/
theorem video_started_implies_connected_and_emitted_witness :
    Reachable startedSystem ∧ startedSystem.app.videoStarted = true ∧
    startedSystem.app.isConnected = true ∧
    ∃ sock, startedSystem.service.socket = some sock ∧
      startedSinceConnect sock.trace = true :=
  ⟨reachable_startedSystem, rfl,
    (video_started_implies_connected_and_emitted startedSystem reachable_startedSystem).1 rfl,
    (video_started_implies_connected_and_emitted startedSystem reachable_startedSystem).2.1 rfl⟩

/-! ## The frame rate of VideoCanvas -/

theorem mathRound_eq_iff (x : ℚ) (z : Int) :
    mathRound x = z ↔ (z : ℚ) - 1 / 2 ≤ x ∧ x < (z : ℚ) + 1 / 2 := by
  unfold mathRound
  rw [Int.floor_eq_iff]
  constructor
  · rintro ⟨h1, h2⟩
    constructor <;> linarith
  · rintro ⟨h1, h2⟩
    constructor <;> linarith

theorem mathRound_rate_eq_iff (e z : Int) (he : 0 < e) :
    mathRound (1000 / (e : ℚ)) = z ↔ (2 * z - 1) * e ≤ 2000 ∧ 2000 < (2 * z + 1) * e := by
  have hq : (0 : ℚ) < (e : ℚ) := by exact_mod_cast he
  rw [mathRound_eq_iff, le_div_iff₀ hq, div_lt_iff₀ hq]
  constructor
  · rintro ⟨h1, h2⟩
    have a1 : (((2 * z - 1) * e : Int) : ℚ) ≤ ((2000 : Int) : ℚ) := by
      push_cast
      linarith
    have a2 : (((2000 : Int)) : ℚ) < (((2 * z + 1) * e : Int) : ℚ) := by
      push_cast
      linarith
    exact ⟨by exact_mod_cast a1, by exact_mod_cast a2⟩
  · rintro ⟨h1, h2⟩
    have a1 : (((2 * z - 1) * e : Int) : ℚ) ≤ ((2000 : Int) : ℚ) := by exact_mod_cast h1
    have a2 : (((2000 : Int)) : ℚ) < (((2 * z + 1) * e : Int) : ℚ) := by exact_mod_cast h2
    push_cast at a1 a2
    constructor <;> linarith

/-- C10: on each frame, with elapsed = now - lastFrameTime, fps becomes
round(1000 / elapsed) (a tie rounding up) when elapsed > 0 and is left
unchanged when elapsed is at most 0; lastFrameTime becomes now in both cases.
For every elapsed of at least 1 the new fps lies in [0, 1000], is 1000 iff
elapsed = 1 and is 0 iff elapsed > 2000. -/
theorem fps_update (st : VideoCanvasState) (now : Int) :
    (0 < now - st.lastFrameTime →
      (VideoCanvas.onFrame st now).fps = mathRound (1000 / ((now - st.lastFrameTime : Int) : ℚ))) ∧
    (now - st.lastFrameTime ≤ 0 → (VideoCanvas.onFrame st now).fps = st.fps) ∧
    (VideoCanvas.onFrame st now).lastFrameTime = now ∧
    (∀ (x : ℚ) (z : Int), mathRound x = z ↔ (z : ℚ) - 1 / 2 ≤ x ∧ x < (z : ℚ) + 1 / 2) ∧
    (1 ≤ now - st.lastFrameTime →
      0 ≤ (VideoCanvas.onFrame st now).fps ∧ (VideoCanvas.onFrame st now).fps ≤ 1000 ∧
      ((VideoCanvas.onFrame st now).fps = 1000 ↔ now - st.lastFrameTime = 1) ∧
      ((VideoCanvas.onFrame st now).fps = 0 ↔ 2000 < now - st.lastFrameTime)) := by
  have hpos : 0 < now - st.lastFrameTime →
      (VideoCanvas.onFrame st now).fps =
        mathRound (1000 / ((now - st.lastFrameTime : Int) : ℚ)) := by
    intro h
    simp [VideoCanvas.onFrame, h]
  refine ⟨hpos, ?_, rfl, mathRound_eq_iff, ?_⟩
  · intro h
    have hn : ¬ (now - st.lastFrameTime > 0) := by omega
    simp [VideoCanvas.onFrame, hn]
  · intro h1
    have he : 0 < now - st.lastFrameTime := by omega
    rw [hpos he]
    generalize now - st.lastFrameTime = e at h1 he
    obtain ⟨b1, b2⟩ := (mathRound_rate_eq_iff e _ he).1 rfl
    generalize mathRound (1000 / (e : ℚ)) = z at b1 b2
    refine ⟨?_, ?_, ?_, ?_⟩
    · by_contra hneg
      have : 2 * z + 1 ≤ -1 := by omega
      nlinarith
    · by_contra hbig
      have : 2001 ≤ 2 * z - 1 := by omega
      nlinarith
    · constructor
      · intro hz
        subst hz
        omega
      · intro h
        subst h
        omega
    · constructor
      · intro hz
        subst hz
        omega
      · intro h
        by_contra hz
        rcases lt_or_gt_of_ne hz with hlt | hgt
        · have : 2 * z + 1 ≤ -1 := by omega
          nlinarith
        · have : 1 ≤ 2 * z - 1 := by omega
          nlinarith

/-- Witness for C10: a frame 3 ms after the previous one shows 333 fps. -/
theorem fps_update_witness :
    (1 : Int) ≤ 103 - (VideoCanvasState.mk 0 100).lastFrameTime ∧
    0 ≤ (VideoCanvas.onFrame ⟨0, 100⟩ 103).fps ∧ (VideoCanvas.onFrame ⟨0, 100⟩ 103).fps ≤ 1000 :=
  ⟨by decide, ((fps_update ⟨0, 100⟩ 103).2.2.2.2 (by decide)).1,
    ((fps_update ⟨0, 100⟩ 103).2.2.2.2 (by decide)).2.1⟩

end Whiteboard
